import Mathlib

/-!
Shallow embedding of `src/synthetic_data_generator.py` (SyntheticDataGEN).

Modelling conventions:
* Python values returned by `random_value` are heterogeneous (ints, floats,
  strings); they are modelled by the inductive `PyVal`.  `pyStr` models the
  `str(...)` conversion applied in `insert_statement`.
* Randomness (`secrets.SystemRandom().uniform`, `secrets.randbits`,
  `secrets.randbelow`, `secrets.choice`, `uuid.uuid4`) is modelled by an
  explicit oracle structure `Rand`; each call site of a random primitive in
  `random_value` reads its own field, so a single `Rand` value determines one
  call of `random_value`.  Only one `match` branch executes per call, so
  fields may be shared between branches.
* Python exceptions (`NotImplementedError` for unsupported types, the
  `ValueError` that `secrets.randbelow` raises on a non-positive bound) are
  modelled with `Except String`.
* Python `dict` objects (which preserve insertion order and update values in
  place) are modelled as association lists, with `omUpdate` reproducing the
  `d[k] = v` / `d |= {k: v}` semantics: an existing key keeps its position
  and only its value changes, a new key is appended at the end.
-/

namespace SynthGen

/-- A Python value produced by `random_value`: a string, an `int`, or the
`float` produced by the `"float"` branch (`randbelow(...) / 50`, represented
by the integer numerator drawn). -/
inductive PyVal where
  | pstr : String → PyVal
  | pint : Nat → PyVal
  | pfloat : Nat → PyVal
deriving DecidableEq

/-- The apostrophe character (codepoint 39). -/
def aposChar : Char := Char.ofNat 39

/-- Model of `pad_string_by_apostrophes`: surround a string with apostrophes. -/
def pad_string_by_apostrophes (input_string : String) : String :=
  String.singleton aposChar ++ input_string ++ String.singleton aposChar

/-- Python `str(n / 50)` for a natural `n` drawn by the `"float"` branch
(`n < 256` in the source).  `n / 50` always has an exact two-decimal-digit
representation `2*n / 100`, and Python prints the shortest round-tripping
decimal for it, with at least one fractional digit. -/
def floatStr (n : Nat) : String :=
  let whole := n / 50
  let hundredths := n % 50 * 2
  if hundredths = 0 then Nat.repr whole ++ ".0"
  else if hundredths % 10 = 0 then Nat.repr whole ++ "." ++ Nat.repr (hundredths / 10)
  else if hundredths < 10 then Nat.repr whole ++ ".0" ++ Nat.repr hundredths
  else Nat.repr whole ++ "." ++ Nat.repr hundredths

/-- Model of Python `str(...)` on the values `random_value` can return. -/
def pyStr : PyVal → String
  | .pstr s => s
  | .pint n => Nat.repr n
  | .pfloat n => floatStr n

/-- Oracle for one call of `random_value`: one field per occurrence of a
random primitive in the source.  `chars n` stands for the concatenation
`"".join(secrets.choice(alphabet) for _ in range(n))`, `binBits n` for
`secrets.randbits(n)`, `uniform` for `secrets.SystemRandom().uniform(0, 1)`,
and the remaining fields for the respective `secrets.randbelow`/`randbits`
draws of the branch that executes. -/
structure Rand where
  uniform : ℚ
  bit1 : Nat
  chars : Nat → String
  intDraw : Nat
  smallintDraw : Nat
  tinyintDraw : Nat
  floatDraw : Nat
  binBits : Nat → Nat
  yearDraw : Nat
  monthDraw : Nat
  dayDraw : Nat
  hourDraw : Nat
  minuteDraw : Nat
  secondDraw : Nat
  uuidDraw : String

/-- Model of the null check opening `random_value`: Python
`if null_probability:` is false for `None` and for `0.0`; when truthy, the
uniform draw is compared with `<=`. -/
def nullFires (null_probability : Option ℚ) (u : ℚ) : Bool :=
  match null_probability with
  | none => false
  | some p => if p = 0 then false else decide (u ≤ p)

/-- The string-like type names of the second `match` case of `random_value`. -/
def stringTypes : List String := ["char", "varchar", "text", "nchar", "nvarchar", "ntext"]

/-- The integer-like type names of the third `match` case of `random_value`. -/
def intTypes : List String := ["bigint", "numeric", "decimal", "int"]

/-- Zero padding of Python `f-string` format `{x:02}`: width two, leading
zero; wider numbers print in full. -/
def pad2 (n : Nat) : String :=
  if n < 10 then "0" ++ Nat.repr n else Nat.repr n

/-- Model of `random_value` (src lines 166-241).  The `match` of the source
is rendered as an if-chain in source order (the patterns are disjoint string
literals, so the order is immaterial).  `secrets.randbelow` raises
`ValueError` when its bound is not positive; with `Nat` bounds that is
exactly the bound-zero case. -/
def random_value (data_type : String) (str_size bin_size int_max : Nat)
    (null_probability : Option ℚ) (r : Rand) : Except String PyVal :=
  if nullFires null_probability r.uniform then .ok (.pstr ("NULL"))
  else if data_type = "bit" then .ok (.pint r.bit1)
  else if data_type = "char" ∨ data_type = "varchar" ∨ data_type = "text" ∨
      data_type = "nchar" ∨ data_type = "nvarchar" ∨ data_type = "ntext" then
    .ok (.pstr (pad_string_by_apostrophes (r.chars str_size)))
  else if data_type = "bigint" ∨ data_type = "numeric" ∨
      data_type = "decimal" ∨ data_type = "int" then
    if int_max = 0 then .error ("Upper bound must be positive.")
    else .ok (.pint r.intDraw)
  else if data_type = "smallint" then
    if min 32767 int_max = 0 then .error ("Upper bound must be positive.")
    else .ok (.pint r.smallintDraw)
  else if data_type = "tinyint" then
    if min 256 int_max = 0 then .error ("Upper bound must be positive.")
    else .ok (.pint r.tinyintDraw)
  else if data_type = "float" then
    if min 256 int_max = 0 then .error ("Upper bound must be positive.")
    else .ok (.pfloat r.floatDraw)
  else if data_type = "varbinary" ∨ data_type = "binary" then
    .ok (.pstr ("CAST(" ++ Nat.repr (r.binBits bin_size) ++ " AS BINARY(" ++
      Nat.repr bin_size ++ "))"))
  else if data_type = "date" then
    .ok (.pstr (pad_string_by_apostrophes
      (Nat.repr (1970 + r.yearDraw) ++ "-" ++ pad2 (1 + r.monthDraw) ++ "-" ++
        pad2 (1 + r.dayDraw))))
  else if data_type = "datetime" ∨ data_type = "datetime2" then
    .ok (.pstr (pad_string_by_apostrophes
      (Nat.repr (1970 + r.yearDraw) ++ "-" ++ pad2 (1 + r.monthDraw) ++ "-" ++
        pad2 (1 + r.dayDraw) ++ " " ++ pad2 r.hourDraw ++ ":" ++
        pad2 r.minuteDraw ++ ":" ++ pad2 r.secondDraw)))
  else if data_type = "time" then
    .ok (.pstr (pad_string_by_apostrophes
      (pad2 r.hourDraw ++ ":" ++ pad2 r.minuteDraw ++ ":" ++ pad2 r.secondDraw)))
  else if data_type = "timestamp" then .ok (.pstr ("DEFAULT"))
  else if data_type = "uniqueidentifier" then
    .ok (.pstr ("CONVERT(uniqueidentifier, " ++
      pad_string_by_apostrophes r.uuidDraw ++ ")"))
  else .error ("unsupported data type " ++ data_type)

/-- The full enumerated set of supported type names, in source order. -/
def supportedTypes : List String :=
  "bit" :: stringTypes ++ intTypes ++
    ["smallint", "tinyint", "float", "varbinary", "binary", "date",
      "datetime", "datetime2", "time", "timestamp", "uniqueidentifier"]

/-- One column's definition as built by `generate_table_definitions`:
`data_type` verbatim from the catalog, `is_nullable` from the `"YES"` test,
`max_length` either `None` (catalog `"NULL"`) or the parsed integer. -/
structure ColumnDef where
  data_type : String
  is_nullable : Bool
  max_length : Option Int
deriving DecidableEq

/-- A table definition: an insertion-ordered map from column name to
`ColumnDef`, modelled as an association list (Python `dict`). -/
abbrev TableDef := List (String × ColumnDef)

/-- Text interpolated for `_max_length` in `create_statement`: the source
replaces a negative value by the string `"max"` and then interpolates with
an f-string, so `None` prints as `"None"` and a non-negative integer prints
in decimal. -/
def lengthText : Option Int → String
  | none => "None"
  | some n => if n < 0 then "max" else Int.repr n

/-- The character-like type names of `create_statement`'s first match case
(note: `text`/`ntext` are absent here, unlike in `random_value`). -/
def charLikeTypes : List String := ["char", "varchar", "nchar", "nvarchar"]

/-- The binary-like type names of `create_statement`'s second match case. -/
def binaryLikeTypes : List String := ["varbinary", "binary"]

/-- The rendered type text of one column in `create_statement` (the
`match _data_type_def` block, src lines 269-275): character- and binary-like
types get a parenthesised length, `bit` is overridden to `BIT`, everything
else passes through verbatim. -/
def column_type_text (data_type : String) (max_length : Option Int) : String :=
  if data_type ∈ charLikeTypes then data_type ++ "(" ++ lengthText max_length ++ ")"
  else if data_type ∈ binaryLikeTypes then
    data_type ++ "(" ++ lengthText max_length ++ ")"
  else if data_type = "bit" then "BIT"
  else data_type

/-- Python `table_name.replace(".", "_")`. -/
def dotsToUnderscores (s : String) : String :=
  s.map fun c => if c = '.' then '_' else c

/-- Comma join, Python `",".join(...)`. -/
def joinComma : List String → String
  | [] => ""
  | [s] => s
  | s :: rest => s ++ "," ++ joinComma rest

/-- The trailing primary-key constraint of `create_statement`: Python
`if primary_keys:` is false both for `None` and for an empty list. -/
def pkClause (table_name : String) (primary_keys : Option (List String)) : String :=
  match primary_keys with
  | none => ""
  | some pks =>
    if pks = [] then ""
    else
      ", CONSTRAINT [PK_" ++ dotsToUnderscores table_name ++ "] PRIMARY KEY (" ++
        joinComma pks ++ ")"

/-- Model of `create_statement` (src lines 244-300).  Each column renders as
`[name] TYPE NOTNULL` where the nullability text is `NOT NULL` for
non-nullable columns and empty otherwise (the space separator is emitted in
both cases, as in the f-string of the source). -/
def create_statement (table_name : String) (table_def : TableDef)
    (primary_keys : Option (List String)) : String :=
  "CREATE TABLE " ++ table_name ++ " (" ++
    joinComma (table_def.map fun p =>
      "[" ++ p.1 ++ "] " ++ column_type_text p.2.data_type p.2.max_length ++ " " ++
        (if p.2.is_nullable then "" else "NOT NULL")) ++
    pkClause table_name primary_keys ++ ")"

/-- Effective size bound of `insert_statement` (src lines 327-332): when the
column declares a non-negative max length, the configured bound is clamped to
it; otherwise (no length, or the negative unbounded sentinel) the configured
bound is used unmodified. -/
def effectiveSize (configured : Nat) (max_length : Option Int) : Nat :=
  match max_length with
  | some n => if 0 ≤ n then min configured n.toNat else configured
  | none => configured

/-- The per-column value generation of `insert_statement`: walk the columns
in definition order, synthesize each value, apply `str(...)`, and collect
`(column, literal)` pairs.  An exception in `random_value` aborts the whole
statement, as in Python. -/
def insertValues (table_def : TableDef) (str_max_size bin_max_size int_max : Nat)
    (null_probability : ℚ) (r : String → Rand) :
    Except String (List (String × String)) :=
  match table_def with
  | [] => .ok []
  | (col, cd) :: rest => do
    let v ← random_value cd.data_type (effectiveSize str_max_size cd.max_length)
      (effectiveSize bin_max_size cd.max_length) int_max
      (if cd.is_nullable then some null_probability else none) (r col)
    let vs ← insertValues rest str_max_size bin_max_size int_max null_probability r
    .ok ((col, pyStr v) :: vs)

/-- A generated row: the column-to-literal mapping together with the
statement text (the pair `insert_statement` returns). -/
abbrev Row := List (String × String) × String

/-- Model of `insert_statement` (src lines 303-344). -/
def insert_statement (table_name : String) (table_def : TableDef)
    (str_max_size bin_max_size int_max : Nat) (null_probability : ℚ)
    (r : String → Rand) : Except String Row := do
  let vals ← insertValues table_def str_max_size bin_max_size int_max
    null_probability r
  .ok (vals, "INSERT INTO " ++ table_name ++ " VALUES(" ++
    joinComma (vals.map fun p => p.2) ++ ")")

/-- Lookup `_col_values[_pk_col]` for each primary-key column.  A missing
column would raise `KeyError` in Python; the claims only exercise
primary-key columns that are columns of the table, where the lookup is
`some`. -/
def pkTuple (cols : List String) (vals : List (String × String)) :
    List (Option String) :=
  cols.map fun c => (vals.find? fun p => decide (p.1 = c)).map fun p => p.2

/-- The per-table `for pos in range(_rows_per_table)` loop of
`stream_insert_statements` (src lines 404-426), structurally recursive on the
number of remaining range elements.  `pks` distinguishes the three cases of
the source: `none` — the table is not a key of `primary_keys`; `some none` —
it maps to `None` (JSON null), every row is skipped by `continue`; `some
(some cols)` — declared key columns.  The source's `pos += 1` before
`continue` has no effect: Python's `for` statement rebinds `pos` from the
range iterator at the top of every iteration, so the loop body runs exactly
once per range element regardless; accordingly `pos` here is simply the
iteration index passed to the row generator. -/
def insertLoop (pks : Option (Option (List String)))
    (row : Nat → Except String Row) :
    Nat → Nat → List (List (Option String)) → Except String (List Row)
  | 0, _, _ => .ok []
  | n + 1, pos, pkSet =>
    match row pos with
    | .error e => .error e
    | .ok rw =>
      match pks with
      | none =>
        match insertLoop pks row n (pos + 1) pkSet with
        | .error e => .error e
        | .ok rest => .ok (rw :: rest)
      | some none => insertLoop pks row n (pos + 1) pkSet
      | some (some cols) =>
        if pkTuple cols rw.1 ∈ pkSet then insertLoop pks row n (pos + 1) pkSet
        else
          match insertLoop pks row n (pos + 1) (pkTuple cols rw.1 :: pkSet) with
          | .error e => .error e
          | .ok rest => .ok (rw :: rest)

/-- The target row count (src lines 399-403): the requested count, clamped by
the configured maximum if one is configured. -/
def targetRows (max_rows_per_table : Option Nat) (requested : Nat) : Nat :=
  match max_rows_per_table with
  | none => requested
  | some c => min c requested

/-- All rows generated for one table by `stream_insert_statements`: the loop
starts with an empty primary-key set and runs over
`range(targetRows ...)`, generating each candidate row with
`insert_statement` (randomness indexed by row position). -/
def stream_table_inserts (table_name : String) (table_def : TableDef)
    (str_max_size bin_max_size int_max : Nat) (null_probability : ℚ)
    (requested : Nat) (max_rows_per_table : Option Nat)
    (pks : Option (Option (List String))) (rand : Nat → String → Rand) :
    Except String (List Row) :=
  insertLoop pks
    (fun pos => insert_statement table_name table_def str_max_size bin_max_size
      int_max null_probability (rand pos))
    (targetRows max_rows_per_table requested) 0 []

/-- The text sent to the output stream for one emitted row. -/
def renderStmt (r : Row) : String := r.2 ++ ";\n"

/-- Model of `stream_insert_statements` (src lines 370-426), returning the
ordered sequence of emitted lines.  The source iterates the (global) table
definitions; the row-count lookup `number_of_rows_per_table[name]` is
modelled as a total function (a missing entry raises `KeyError` in Python; no
claim exercises that), and `primary_keys` as a total function combining the
`in primary_keys.keys()` test with the stored value. -/
def stream_insert_statements (tables : List (String × TableDef))
    (number_of_rows_per_table : String → Nat)
    (str_max_size bin_max_size int_max : Nat) (null_probability : ℚ)
    (max_rows_per_table : Option Nat)
    (primary_keys : String → Option (Option (List String)))
    (rand : String → Nat → String → Rand) : Except String (List String) :=
  match tables with
  | [] => .ok []
  | (name, td) :: rest =>
    match stream_table_inserts name td str_max_size bin_max_size int_max
      null_probability (number_of_rows_per_table name) max_rows_per_table
      (primary_keys name) (rand name) with
    | .error e => .error e
    | .ok rows =>
      match stream_insert_statements rest number_of_rows_per_table
        str_max_size bin_max_size int_max null_probability max_rows_per_table
        primary_keys rand with
      | .error e => .error e
      | .ok others => .ok (rows.map renderStmt ++ others)

/-- Python `dict` assignment `m[k] = v` (also `m |= {k: v}`) on an
association list: an existing key keeps its position and gets the new value,
a new key is appended at the end.  (Keys are unique in every map built here,
exactly as in a Python `dict`.) -/
def omUpdate {α β : Type} [DecidableEq α] : List (α × β) → α → β → List (α × β)
  | [], k, v => [(k, v)]
  | p :: rest, k, v =>
    if p.1 = k then (k, v) :: rest else p :: omUpdate rest k v

/-- Python `dict` lookup `m[k]` (as an `Option`; a miss raises `KeyError`). -/
def omLookup {α β : Type} [DecidableEq α] : List (α × β) → α → Option β
  | [], _ => none
  | p :: rest, k => if p.1 = k then some p.2 else omLookup rest k

/-- The key list of an ordered map, in insertion order. -/
def omKeys {α β : Type} (m : List (α × β)) : List α := m.map fun p => p.1

/-- One row of the parsed schema catalog CSV with the fields
`generate_table_definitions` reads (the others are ignored by it). -/
structure CatalogRow where
  table_schema : String
  table_name : String
  column_name : String
  data_type : String
  is_nullable : String
  character_maximum_length : String
deriving DecidableEq

/-- The fully-qualified table name `TABLE_SCHEMA.TABLE_NAME` of a row. -/
def fullTableName (r : CatalogRow) : String :=
  r.table_schema ++ "." ++ r.table_name

/-- The catalog string `CHARACTER_MAXIMUM_LENGTH`: the literal `"NULL"` maps
to `None`, anything else parses with `int(...)` (which raises on malformed
input in Python; no claim exercises malformed input). -/
def parseMaxLen (s : String) : Option Int :=
  if s = "NULL" then none else s.toInt?

/-- The column definition built from one catalog row (src lines 140-147). -/
def columnDefOfRow (r : CatalogRow) : ColumnDef :=
  { data_type := r.data_type
    is_nullable := r.is_nullable = "YES"
    max_length := parseMaxLen r.character_maximum_length }

/-- Processing of one catalog row by `generate_table_definitions`:
`_table_defs[_full_tbl_name] |= _column_definition` on a
`defaultdict(dict)` — the table's map is fetched (empty when absent) and
updated in place with the single-column definition; a fresh table is appended
at the end of the outer map. -/
def addCatalogRow (defs : List (String × TableDef)) (r : CatalogRow) :
    List (String × TableDef) :=
  let name := fullTableName r
  let cur := (omLookup defs name).getD []
  omUpdate defs name (omUpdate cur r.column_name (columnDefOfRow r))

/-- Model of `generate_table_definitions` (src lines 101-151).  The source
iterates row positions of the column-oriented parse of the CSV; this model
iterates the equivalent row list in the same order. -/
def generate_table_definitions (rows : List CatalogRow) :
    List (String × TableDef) :=
  rows.foldl addCatalogRow []

/-- Characters produced by `Nat.digitChar` below base ten are decimal
digits. -/
lemma digitChar_isDigit (d : Nat) (h : d < 10) :
    (Nat.digitChar d).isDigit = true := by
  interval_cases d <;> decide

/-- Every character that `Nat.toDigitsCore` adds in base ten is a decimal
digit. -/
lemma toDigitsCore_isDigit (fuel : Nat) :
    ∀ (n : Nat) (ds : List Char), (∀ c ∈ ds, c.isDigit = true) →
      ∀ c ∈ Nat.toDigitsCore 10 fuel n ds, c.isDigit = true := by
  induction fuel with
  | zero => intro n ds hds c hc; exact hds c hc
  | succ f ih =>
    intro n ds hds c hc
    simp only [Nat.toDigitsCore] at hc
    by_cases h : n / 10 = 0
    · rw [if_pos h] at hc
      rcases List.mem_cons.mp hc with rfl | hmem
      · exact digitChar_isDigit _ (Nat.mod_lt _ (by omega))
      · exact hds _ hmem
    · rw [if_neg h] at hc
      refine ih (n / 10) (Nat.digitChar (n % 10) :: ds) ?_ c hc
      intro x hx
      rcases List.mem_cons.mp hx with rfl | hmem
      · exact digitChar_isDigit _ (Nat.mod_lt _ (by omega))
      · exact hds _ hmem

/-- Every character of the decimal representation of a natural number is a
digit. -/
lemma natRepr_isDigit (n : Nat) : ∀ c ∈ (Nat.repr n).data, c.isDigit = true := by
  intro c hc
  have hd : (Nat.repr n).data = Nat.toDigitsCore 10 (n + 1) n [] := rfl
  rw [hd] at hc
  exact toDigitsCore_isDigit (n + 1) n [] (by intro x hx; cases hx) c hc

/-- The decimal representation of a natural number is never the word
`max`. -/
lemma natRepr_ne_max (n : Nat) : Nat.repr n ≠ "max" := by
  intro h
  have hm := natRepr_isDigit n
  rw [h] at hm
  have hdig : Char.isDigit ('m') = true := hm ('m') (by decide)
  exact absurd hdig (by decide)

/-- The decimal representation of a non-negative integer is never the word
`max`. -/
lemma intRepr_ne_max (n : Int) (h : 0 ≤ n) : Int.repr n ≠ "max" := by
  obtain ⟨m, rfl⟩ := Int.eq_ofNat_of_zero_le h
  exact natRepr_ne_max m

/-- Key-indexed update hits the key: looking the key up afterwards returns
the new value. -/
lemma omLookup_omUpdate_self {α β : Type} [DecidableEq α]
    (m : List (α × β)) (k : α) (v : β) :
    omLookup (omUpdate m k v) k = some v := by
  induction m with
  | nil => simp [omUpdate, omLookup]
  | cons p rest ih =>
    by_cases h : p.1 = k
    · simp [omUpdate, omLookup, h]
    · simp [omUpdate, omLookup, h, ih]

/-- Updating an existing key leaves the key sequence (hence key count and
every key's position) unchanged. -/
lemma omKeys_omUpdate_of_mem {α β : Type} [DecidableEq α]
    (m : List (α × β)) (k : α) (v : β) (h : k ∈ omKeys m) :
    omKeys (omUpdate m k v) = omKeys m := by
  induction m with
  | nil => cases h
  | cons p rest ih =>
    by_cases hp : p.1 = k
    · simp [omUpdate, omKeys, hp]
    · have hk : k ∈ omKeys rest := by
        simp only [omKeys, List.map_cons, List.mem_cons] at h
        rcases h with h1 | h1
        · exact absurd h1.symm hp
        · exact h1
      have hrest := ih hk
      simp only [omKeys] at hrest
      simp [omUpdate, omKeys, hp, hrest]

/-- A string whose first character differs from the first character of
`NULL` is not `NULL`. -/
lemma data_head_ne_NULL (s : String) (c : Char) (h : s.data.head? = some c)
    (hc : c ≠ ('N')) : s ≠ "NULL" := by
  intro he
  rw [he] at h
  have h3 : (("NULL" : String).data.head?) = some ('N') := by decide
  rw [h3] at h
  exact hc (Option.some.inj h).symm

/-- The first character of an append is the first character of its left
part, when the left part is non-empty. -/
lemma append_data_head (a b : String) (c : Char) (h : a.data.head? = some c) :
    (a ++ b).data.head? = some c := by
  rw [String.data_append]
  rcases hd : a.data with _ | ⟨x, t⟩
  · rw [hd] at h; cases h
  · rw [hd] at h
    rw [List.head?_cons] at h
    rw [List.cons_append, List.head?_cons]
    exact h

/-- An apostrophe-padded string starts with the apostrophe. -/
lemma pad_head (s : String) :
    (pad_string_by_apostrophes s).data.head? = some aposChar := by
  unfold pad_string_by_apostrophes
  apply append_data_head
  apply append_data_head
  decide

/-- An apostrophe-padded string is never the NULL marker. -/
lemma pad_ne_NULL (s : String) : pad_string_by_apostrophes s ≠ "NULL" :=
  data_head_ne_NULL _ _ (pad_head s) (by decide)

/-- The binary literal (a `CAST` expression) is never the NULL marker. -/
lemma cast_ne_NULL (x y : Nat) :
    ("CAST(" ++ Nat.repr x ++ " AS BINARY(" ++ Nat.repr y ++ "))" : String) ≠
      "NULL" := by
  refine data_head_ne_NULL _ ('C') ?_ (by decide)
  apply append_data_head
  apply append_data_head
  apply append_data_head
  apply append_data_head
  decide

/-- The uniqueidentifier literal (a `CONVERT` expression) is never the NULL
marker. -/
lemma convert_ne_NULL (u : String) :
    ("CONVERT(uniqueidentifier, " ++ pad_string_by_apostrophes u ++ ")" :
      String) ≠ "NULL" := by
  refine data_head_ne_NULL _ ('C') ?_ (by decide)
  apply append_data_head
  apply append_data_head
  decide

/-- The null draw never fires for a non-nullable column
(`null_probability is None`). -/
lemma nullFires_none (u : ℚ) : nullFires none u = false := rfl

/-- The null draw fires whenever the probability is truthy and the uniform
draw is below it. -/
lemma nullFires_of_le (p u : ℚ) (hp : p ≠ 0) (hu : u ≤ p) :
    nullFires (some p) u = true := by
  simp only [nullFires]
  rw [if_neg hp]
  exact decide_eq_true hu

/-- A concrete all-zero randomness oracle for the closed instantiations. -/
def randZero : Rand where
  uniform := 0
  bit1 := 0
  chars := fun _ => ""
  intDraw := 0
  smallintDraw := 0
  tinyintDraw := 0
  floatDraw := 0
  binBits := fun _ => 0
  yearDraw := 0
  monthDraw := 0
  dayDraw := 0
  hourDraw := 0
  minuteDraw := 0
  secondDraw := 0
  uuidDraw := ""

/-- Whether a fallible computation produced a value (no exception). -/
def isOkE : Except String PyVal → Bool
  | .ok _ => true
  | .error _ => false

/-- When the null draw does not fire, no dispatch branch of `random_value`
can produce the NULL marker: every branch yields an `int`, a `float`, or a
string that provably differs from `NULL`. -/
lemma dispatch_ne_NULL (dt : String) (s b m : Nat) (np : Option ℚ) (r : Rand)
    (hnf : nullFires np r.uniform = false) :
    random_value dt s b m np r ≠ .ok (.pstr ("NULL")) := by
  intro h
  have hcond : ¬(nullFires np r.uniform = true) := by simp [hnf]
  simp only [random_value] at h
  rw [if_neg hcond] at h
  by_cases c1 : dt = "bit"
  · rw [if_pos c1] at h
    exact PyVal.noConfusion (Except.ok.inj h)
  rw [if_neg c1] at h
  by_cases c2 : dt = "char" ∨ dt = "varchar" ∨ dt = "text" ∨ dt = "nchar" ∨
    dt = "nvarchar" ∨ dt = "ntext"
  · rw [if_pos c2] at h
    exact pad_ne_NULL _ (PyVal.pstr.inj (Except.ok.inj h))
  rw [if_neg c2] at h
  by_cases c3 : dt = "bigint" ∨ dt = "numeric" ∨ dt = "decimal" ∨ dt = "int"
  · rw [if_pos c3] at h
    rcases ite_eq_iff.mp h with ⟨_, he⟩ | ⟨_, he⟩
    · exact Except.noConfusion he
    · exact PyVal.noConfusion (Except.ok.inj he)
  rw [if_neg c3] at h
  by_cases c4 : dt = "smallint"
  · rw [if_pos c4] at h
    rcases ite_eq_iff.mp h with ⟨_, he⟩ | ⟨_, he⟩
    · exact Except.noConfusion he
    · exact PyVal.noConfusion (Except.ok.inj he)
  rw [if_neg c4] at h
  by_cases c5 : dt = "tinyint"
  · rw [if_pos c5] at h
    rcases ite_eq_iff.mp h with ⟨_, he⟩ | ⟨_, he⟩
    · exact Except.noConfusion he
    · exact PyVal.noConfusion (Except.ok.inj he)
  rw [if_neg c5] at h
  by_cases c6 : dt = "float"
  · rw [if_pos c6] at h
    rcases ite_eq_iff.mp h with ⟨_, he⟩ | ⟨_, he⟩
    · exact Except.noConfusion he
    · exact PyVal.noConfusion (Except.ok.inj he)
  rw [if_neg c6] at h
  by_cases c7 : dt = "varbinary" ∨ dt = "binary"
  · rw [if_pos c7] at h
    exact cast_ne_NULL _ _ (PyVal.pstr.inj (Except.ok.inj h))
  rw [if_neg c7] at h
  by_cases c8 : dt = "date"
  · rw [if_pos c8] at h
    exact pad_ne_NULL _ (PyVal.pstr.inj (Except.ok.inj h))
  rw [if_neg c8] at h
  by_cases c9 : dt = "datetime" ∨ dt = "datetime2"
  · rw [if_pos c9] at h
    exact pad_ne_NULL _ (PyVal.pstr.inj (Except.ok.inj h))
  rw [if_neg c9] at h
  by_cases c10 : dt = "time"
  · rw [if_pos c10] at h
    exact pad_ne_NULL _ (PyVal.pstr.inj (Except.ok.inj h))
  rw [if_neg c10] at h
  by_cases c11 : dt = "timestamp"
  · rw [if_pos c11] at h
    exact absurd (PyVal.pstr.inj (Except.ok.inj h)) (by decide)
  rw [if_neg c11] at h
  by_cases c12 : dt = "uniqueidentifier"
  · rw [if_pos c12] at h
    exact convert_ne_NULL _ (PyVal.pstr.inj (Except.ok.inj h))
  rw [if_neg c12] at h
  exact Except.noConfusion h

/-- When the null draw does not fire, a type name outside the enumerated set
reaches the fall-through `raise` of `random_value`. -/
lemma random_value_unsupported (dt : String) (s b m : Nat) (np : Option ℚ)
    (r : Rand) (hdt : dt ∉ supportedTypes)
    (hnf : nullFires np r.uniform = false) :
    random_value dt s b m np r = .error ("unsupported data type " ++ dt) := by
  simp only [supportedTypes, stringTypes, intTypes, List.mem_cons,
    List.mem_append, List.not_mem_nil, or_false] at hdt
  push_neg at hdt
  simp [random_value, hnf, hdt]

/-- C4 counterexample: for the unsupported type name `foo` with a truthy
null probability and a firing draw, `random_value` returns the NULL marker
instead of raising the unsupported-type error. -/
theorem C4_counterexample :
    ("foo" : String) ∉ supportedTypes
    ∧ random_value ("foo") 1 1 1 (some 1) randZero = .ok (.pstr ("NULL")) := by
  refine ⟨by decide, ?_⟩
  rfl

/-- C4 amended: for every type name outside the enumerated set,
`random_value` raises the unsupported-type error and produces no value
whenever the null draw does not fire (in particular for every non-nullable
column, where the probability argument is absent); when the null draw fires
it returns the NULL marker without consulting the type. -/
theorem C4_unsupported_type_error (dt : String) (s b m : Nat) (np : Option ℚ)
    (r : Rand) (hdt : dt ∉ supportedTypes)
    (hnf : nullFires np r.uniform = false) :
    random_value dt s b m np r = .error ("unsupported data type " ++ dt) :=
  random_value_unsupported dt s b m np r hdt hnf

/-- C4 witness: the unsupported name `foo` with no null probability raises. -/
theorem C4_witness :
    random_value ("foo") 1 1 1 none randZero =
      .error ("unsupported data type " ++ "foo") :=
  C4_unsupported_type_error ("foo") 1 1 1 none randZero (by decide) rfl

/-- C5: `random_value` returns the NULL marker exactly as governed by the
null-probability argument — never when it is absent (non-nullable column),
always when it is `1.0` (given a uniform draw in range), never when it is
`0.0` (falsy in Python), and whenever the truthy probability dominates the
draw the NULL marker is returned before any type-specific generation. -/
theorem C5_null_marker_behaviour :
    (∀ (dt : String) (s b m : Nat) (r : Rand),
      random_value dt s b m none r ≠ .ok (.pstr ("NULL")))
    ∧ (∀ (dt : String) (s b m : Nat) (r : Rand), r.uniform ≤ 1 →
      random_value dt s b m (some 1) r = .ok (.pstr ("NULL")))
    ∧ (∀ (dt : String) (s b m : Nat) (r : Rand),
      random_value dt s b m (some 0) r ≠ .ok (.pstr ("NULL")))
    ∧ (∀ (dt : String) (s b m : Nat) (p : ℚ) (r : Rand), p ≠ 0 →
      r.uniform ≤ p → random_value dt s b m (some p) r = .ok (.pstr ("NULL"))) := by
  refine ⟨?_, ?_, ?_, ?_⟩
  · intro dt s b m r
    exact dispatch_ne_NULL dt s b m none r rfl
  · intro dt s b m r hu
    have hf : nullFires (some 1) r.uniform = true :=
      nullFires_of_le 1 r.uniform one_ne_zero hu
    simp [random_value, hf]
  · intro dt s b m r
    exact dispatch_ne_NULL dt s b m (some 0) r (by simp [nullFires])
  · intro dt s b m p r hp hu
    have hf := nullFires_of_le p r.uniform hp hu
    simp [random_value, hf]

/-- C5 witness: concrete null-probability behaviour at probability absent
and probability one. -/
theorem C5_witness :
    random_value ("bit") 1 1 1 none randZero ≠ .ok (.pstr ("NULL"))
    ∧ random_value ("bit") 1 1 1 (some 1) randZero = .ok (.pstr ("NULL")) := by
  constructor
  · exact C5_null_marker_behaviour.1 ("bit") 1 1 1 randZero
  · exact C5_null_marker_behaviour.2.1 ("bit") 1 1 1 randZero
      (by norm_num [randZero])

/-- C6 counterexample: the non-lowercase casings `BIT`, `VarChar`, `INT` of
supported names hit the unsupported-type failure, while lowercase `bit`
succeeds — the dispatch is not case-insensitive. -/
theorem C6_counterexample :
    random_value ("BIT") 1 1 1 none randZero =
      .error ("unsupported data type BIT")
    ∧ random_value ("VarChar") 1 1 1 none randZero =
      .error ("unsupported data type VarChar")
    ∧ random_value ("INT") 1 1 1 none randZero =
      .error ("unsupported data type INT")
    ∧ random_value ("bit") 1 1 1 none randZero = .ok (.pint 0) :=
  ⟨rfl, rfl, rfl, rfl⟩

/-- C6 amended: the dispatch of `random_value` is a case-sensitive exact
match against the fixed enumerated set — a value is produced exactly for the
names of that set, spelled lowercase as in the source; any other string,
including other casings of supported names, raises the unsupported-type
error. -/
theorem C6_case_sensitive_dispatch (dt : String) (s b m : Nat) (r : Rand)
    (hm : 0 < m) :
    isOkE (random_value dt s b m none r) = true ↔ dt ∈ supportedTypes := by
  constructor
  · intro hv
    by_contra hdt
    rw [random_value_unsupported dt s b m none r hdt rfl] at hv
    simp [isOkE] at hv
  · intro hmem
    have h0 : ¬(m = 0) := by omega
    have h1 : ¬(min 32767 m = 0) := by omega
    have h2 : ¬(min 256 m = 0) := by omega
    simp only [supportedTypes, stringTypes, intTypes, List.mem_cons,
      List.mem_append, List.not_mem_nil, or_false] at hmem
    rcases hmem with ((rfl | rfl | rfl | rfl | rfl | rfl | rfl) | rfl | rfl |
      rfl | rfl) | rfl | rfl | rfl | rfl | rfl | rfl | rfl | rfl | rfl |
      rfl | rfl <;>
      simp [random_value, nullFires, isOkE, h0, h1, h2]

/-- C6 witness: lowercase `bit` produces a value, the casing `BIT` does
not. -/
theorem C6_witness :
    isOkE (random_value ("bit") 1 1 1 none randZero) = true
    ∧ isOkE (random_value ("BIT") 1 1 1 none randZero) = false := by
  constructor
  · exact (C6_case_sensitive_dispatch ("bit") 1 1 1 randZero
      (by norm_num)).mpr (by decide)
  · rfl

/-- C7: in `create_statement` output, a length clause is appended exactly for
the character- and binary-like column types, and the clause text is the
literal `max` precisely when `max_length` is the negative unbounded sentinel,
while a non-negative bound renders in decimal; all other types get no length
clause. -/
theorem C7_length_clause (dt : String) (ml : Option Int) :
    (dt ∈ charLikeTypes ++ binaryLikeTypes →
      column_type_text dt ml = dt ++ "(" ++ lengthText ml ++ ")"
      ∧ (lengthText ml = "max" ↔ ∃ n : Int, ml = some n ∧ n < 0)
      ∧ (∀ n : Int, ml = some n → 0 ≤ n → lengthText ml = Int.repr n))
    ∧ (dt ∉ charLikeTypes ++ binaryLikeTypes →
      column_type_text dt ml = if dt = "bit" then "BIT" else dt) := by
  constructor
  · intro hmem
    refine ⟨?_, ?_, ?_⟩
    · rcases List.mem_append.mp hmem with h | h
      · simp only [column_type_text]
        rw [if_pos h]
      · have hnc : dt ∉ charLikeTypes := by
          simp only [binaryLikeTypes, List.mem_cons, List.not_mem_nil,
            or_false] at h
          rcases h with rfl | rfl <;> decide
        simp only [column_type_text]
        rw [if_neg hnc, if_pos h]
    · cases ml with
      | none =>
        constructor
        · intro hh; exact absurd hh (by decide)
        · rintro ⟨n, hn, _⟩; cases hn
      | some n =>
        by_cases hn : n < 0
        · constructor
          · intro _; exact ⟨n, rfl, hn⟩
          · intro _; simp only [lengthText]; rw [if_pos hn]
        · constructor
          · intro hh
            simp only [lengthText] at hh
            rw [if_neg hn] at hh
            exact absurd hh (intRepr_ne_max n (by omega))
          · rintro ⟨n2, hn2, hlt⟩
            exact absurd (Option.some.inj hn2 ▸ hlt) hn
    · intro n hn hge
      rw [hn]
      simp only [lengthText]
      rw [if_neg (not_lt.mpr hge)]
  · intro hnot
    have h1 : dt ∉ charLikeTypes := fun h => hnot (List.mem_append_left _ h)
    have h2 : dt ∉ binaryLikeTypes := fun h => hnot (List.mem_append_right _ h)
    simp only [column_type_text]
    rw [if_neg h1, if_neg h2]

/-- C7 witness: concrete instances of the length-clause property. -/
theorem C7_witness :
    column_type_text ("varchar") (some (-1)) =
      "varchar" ++ "(" ++ lengthText (some (-1)) ++ ")"
    ∧ lengthText (some (-1)) = "max"
    ∧ lengthText (some 10) = Int.repr 10
    ∧ column_type_text ("int") none = "int" := by
  have h1 := (C7_length_clause ("varchar") (some (-1))).1 (by decide)
  have h2 := (C7_length_clause ("varchar") (some 10)).1 (by decide)
  have h3 := (C7_length_clause ("int") none).2 (by decide)
  exact ⟨h1.1, h1.2.1.mpr ⟨-1, rfl, by norm_num⟩, h2.2.2 10 rfl (by norm_num),
    h3.trans (by decide)⟩

/-- C8 counterexample: a column of catalog type `Bit` (non-lowercase casing)
is rendered verbatim as `Bit`, not overridden to `BIT`. -/
theorem C8_counterexample :
    column_type_text ("Bit") none = "Bit" ∧ ("Bit" : String) ≠ "BIT" := by
  constructor
  · decide
  · decide

/-- C8 amended: the hard override to the literal `BIT` applies exactly to the
lowercase catalog name `bit`; any other type name outside the
character/binary-like set is rendered with its catalog casing verbatim. -/
theorem C8_bit_override (ml : Option Int) (dt : String)
    (h1 : dt ∉ charLikeTypes ++ binaryLikeTypes) :
    column_type_text ("bit") ml = "BIT"
    ∧ (dt ≠ "bit" → column_type_text dt ml = dt) := by
  constructor
  · simp only [column_type_text]
    rw [if_neg (by decide), if_neg (by decide)]
    decide
  · intro h2
    have hc : dt ∉ charLikeTypes := fun h => h1 (List.mem_append_left _ h)
    have hb : dt ∉ binaryLikeTypes := fun h => h1 (List.mem_append_right _ h)
    simp only [column_type_text]
    rw [if_neg hc, if_neg hb, if_neg h2]

/-- C8 witness: lowercase `bit` is overridden, the casing `Bit` is not. -/
theorem C8_witness :
    column_type_text ("bit") none = "BIT"
    ∧ column_type_text ("Bit") none = "Bit" := by
  have h := C8_bit_override none ("Bit") (by decide)
  exact ⟨h.1, h.2 (by decide)⟩

/-- C10: appending a catalog row whose table and column are already defined
overwrites that column's definition with the later row's data, while the
table's column-name sequence — and with it the column count and the column's
position — stays exactly as it was. -/
theorem C10_duplicate_column_overwrites (rows : List CatalogRow)
    (r : CatalogRow) (td : TableDef)
    (h1 : omLookup (generate_table_definitions rows) (fullTableName r) = some td)
    (h2 : r.column_name ∈ omKeys td) :
    ∃ td2,
      omLookup (generate_table_definitions (rows ++ [r])) (fullTableName r) =
        some td2
      ∧ omKeys td2 = omKeys td
      ∧ td2.length = td.length
      ∧ omLookup td2 r.column_name = some (columnDefOfRow r) := by
  have hfold : generate_table_definitions (rows ++ [r]) =
      addCatalogRow (generate_table_definitions rows) r := by
    simp [generate_table_definitions, List.foldl_append]
  have hkeys := omKeys_omUpdate_of_mem td r.column_name (columnDefOfRow r) h2
  refine ⟨omUpdate td r.column_name (columnDefOfRow r), ?_, hkeys, ?_, ?_⟩
  · rw [hfold]
    simp only [addCatalogRow]
    rw [h1]
    simp only [Option.getD_some]
    exact omLookup_omUpdate_self _ _ _
  · have := congrArg List.length hkeys
    simpa [omKeys] using this
  · exact omLookup_omUpdate_self _ _ _

/-- A first catalog row for the C10 witness. -/
def crow1 : CatalogRow :=
  ⟨"dbo", "Users", "Id", "int", "NO", "NULL"⟩

/-- A second catalog row for the C10 witness: same table and column as
`crow1`, different definition. -/
def crow2 : CatalogRow :=
  ⟨"dbo", "Users", "Id", "varchar", "YES", "12"⟩

/-- Invariant of the per-table loop with declared key columns: the emitted
rows carry pairwise distinct primary-key tuples, and none of them is already
in the set the loop started with. -/
lemma insertLoop_nodup (cols : List String) (row : Nat → Except String Row) :
    ∀ (n pos : Nat) (pkSet : List (List (Option String))) (out : List Row),
      insertLoop (some (some cols)) row n pos pkSet = .ok out →
      (out.map fun rw => pkTuple cols rw.1).Nodup ∧
        ∀ t ∈ out.map fun rw => pkTuple cols rw.1, t ∉ pkSet := by
  intro n
  induction n with
  | zero =>
    intro pos pkSet out h
    simp only [insertLoop] at h
    obtain rfl : ([] : List Row) = out := Except.ok.inj h
    simp
  | succ k ih =>
    intro pos pkSet out h
    simp only [insertLoop] at h
    cases hrow : row pos with
    | error e =>
      rw [hrow] at h
      exact Except.noConfusion h
    | ok rw =>
      simp only [hrow] at h
      by_cases hmem : pkTuple cols rw.1 ∈ pkSet
      · rw [if_pos hmem] at h
        exact ih (pos + 1) pkSet out h
      · rw [if_neg hmem] at h
        cases hrec : insertLoop (some (some cols)) row k (pos + 1)
            (pkTuple cols rw.1 :: pkSet) with
        | error e =>
          rw [hrec] at h
          exact Except.noConfusion h
        | ok rest =>
          rw [hrec] at h
          obtain rfl : rw :: rest = out := Except.ok.inj h
          obtain ⟨hnd, hnin⟩ := ih (pos + 1) _ rest hrec
          constructor
          · simp only [List.map_cons, List.nodup_cons]
            refine ⟨?_, hnd⟩
            intro hin
            exact (hnin _ hin) (List.mem_cons_self _ _)
          · intro t ht
            simp only [List.map_cons, List.mem_cons] at ht
            rcases ht with rfl | ht
            · exact hmem
            · intro htin
              exact (hnin _ ht) (List.mem_cons_of_mem _ htin)

/-- C1: for a table whose primary-key map entry is a declared column list,
the rows emitted by the per-table loop of `stream_insert_statements` carry
pairwise distinct primary-key tuples. -/
theorem C1_pk_tuples_distinct (table_name : String) (table_def : TableDef)
    (s b m : Nat) (np : ℚ) (requested : Nat) (cap : Option Nat)
    (cols : List String) (rand : Nat → String → Rand) (out : List Row)
    (h : stream_table_inserts table_name table_def s b m np requested cap
      (some (some cols)) rand = .ok out) :
    (out.map fun rw => pkTuple cols rw.1).Nodup :=
  (insertLoop_nodup cols _ _ _ _ _ h).1

/-- A `bit NOT NULL` column used by the concrete loop instantiations. -/
def bitCol : ColumnDef where
  data_type := "bit"
  is_nullable := false
  max_length := none

/-- A randomness stream whose bit draw equals the row position. -/
def randByPos : Nat → String → Rand :=
  fun pos _ => { randZero with bit1 := pos }

/-- The concrete output of the C1 witness run: two rows with distinct
primary-key values. -/
def c1Out : List Row :=
  [([(("Id"), "0")], "INSERT INTO dbo.T VALUES(0)"),
    ([(("Id"), "1")], "INSERT INTO dbo.T VALUES(1)")]

/-- C1 witness: a concrete two-row run emits distinct primary-key tuples. -/
theorem C1_witness : (c1Out.map fun rw => pkTuple ["Id"] rw.1).Nodup :=
  C1_pk_tuples_distinct ("dbo.T") [(("Id"), bitCol)] 5 5 10 0 2 none ["Id"]
    randByPos c1Out (by rfl)

/-- The concrete output of the collision run: a single row. -/
def c2Out : List Row :=
  [([(("Id"), "0")], "INSERT INTO dbo.T VALUES(0)")]

/-- C2: at the failing input — a `bit` primary-key column whose two candidate
rows draw the same value — the loop emits only one INSERT although the target
is `min(cap, requested) = 2`: the collision iteration is skipped, not
retried, so collisions do reduce the number of emitted rows. -/
theorem C2_collision_drops_rows :
    stream_table_inserts ("dbo.T") [(("Id"), bitCol)] 5 5 10 0 2 (some 1000)
      (some (some ["Id"])) (fun _ _ => randZero) = .ok c2Out
    ∧ c2Out.length = 1 ∧ targetRows (some 1000) 2 = 2 :=
  ⟨by rfl, rfl, rfl⟩

/-- The loop never returns more rows than its range length. -/
lemma insertLoop_length_le (pks : Option (Option (List String)))
    (row : Nat → Except String Row) :
    ∀ (n pos : Nat) (pkSet : List (List (Option String))) (out : List Row),
      insertLoop pks row n pos pkSet = .ok out → out.length ≤ n := by
  intro n
  induction n with
  | zero =>
    intro pos pkSet out h
    simp only [insertLoop] at h
    obtain rfl : ([] : List Row) = out := Except.ok.inj h
    simp
  | succ k ih =>
    intro pos pkSet out h
    simp only [insertLoop] at h
    cases hrow : row pos with
    | error e =>
      rw [hrow] at h
      exact Except.noConfusion h
    | ok rw =>
      simp only [hrow] at h
      cases pks with
      | none =>
        cases hrec : insertLoop none row k (pos + 1) pkSet with
        | error e =>
          rw [hrec] at h
          exact Except.noConfusion h
        | ok rest =>
          rw [hrec] at h
          obtain rfl : rw :: rest = out := Except.ok.inj h
          simpa using Nat.succ_le_succ (ih (pos + 1) pkSet rest hrec)
      | some opks =>
        cases opks with
        | none => exact Nat.le_succ_of_le (ih (pos + 1) pkSet out h)
        | some cols =>
          simp only [] at h
          by_cases hmem : pkTuple cols rw.1 ∈ pkSet
          · rw [if_pos hmem] at h
            exact Nat.le_succ_of_le (ih (pos + 1) pkSet out h)
          · rw [if_neg hmem] at h
            cases hrec : insertLoop (some (some cols)) row k (pos + 1)
                (pkTuple cols rw.1 :: pkSet) with
            | error e =>
              rw [hrec] at h
              exact Except.noConfusion h
            | ok rest =>
              rw [hrec] at h
              obtain rfl : rw :: rest = out := Except.ok.inj h
              simpa using Nat.succ_le_succ (ih (pos + 1) _ rest hrec)

/-- The concrete output of the small-domain 50-row run: the loop terminates
after exactly 50 bounded iterations, having emitted a single row. -/
def c3Out : List Row :=
  [([(("Id"), "0")], "INSERT INTO dbo.T VALUES(0)")]

/-- C3: the per-table generation loop is a bounded `for pos in range(...)`
loop — its emitted rows never exceed the range length, and on a primary-key
domain far smaller than the requested row count it still terminates after
exactly `min(cap, requested)` iterations (emitting fewer rows), rather than
running indefinitely. -/
theorem C3_loop_is_bounded :
    (∀ (pks : Option (Option (List String)))
      (row : Nat → Except String Row) (n pos : Nat)
      (pkSet : List (List (Option String))) (out : List Row),
      insertLoop pks row n pos pkSet = .ok out → out.length ≤ n)
    ∧ stream_table_inserts ("dbo.T") [(("Id"), bitCol)] 5 5 10 0 50
        (some 1000) (some (some ["Id"])) (fun _ _ => randZero) = .ok c3Out
    ∧ targetRows (some 1000) 50 = 50 :=
  ⟨fun pks row => insertLoop_length_le pks row, by rfl, rfl⟩

/-- C3 witness: the bound applied at the concrete 50-iteration run. -/
theorem C3_witness : c3Out.length ≤ 50 :=
  C3_loop_is_bounded.1 _ _ 50 0 [] c3Out C3_loop_is_bounded.2.1

/-- A table whose primary-key entry is the explicit absence marker emits no
rows at all: every iteration runs into the `continue`. -/
lemma insertLoop_skip (row : Nat → Except String Row) :
    ∀ (n pos : Nat) (pkSet : List (List (Option String))) (out : List Row),
      insertLoop (some none) row n pos pkSet = .ok out → out = [] := by
  intro n
  induction n with
  | zero =>
    intro pos pkSet out h
    simp only [insertLoop] at h
    exact (Except.ok.inj h).symm
  | succ k ih =>
    intro pos pkSet out h
    simp only [insertLoop] at h
    cases hrow : row pos with
    | error e =>
      rw [hrow] at h
      exact Except.noConfusion h
    | ok rw =>
      simp only [hrow] at h
      exact ih (pos + 1) pkSet out h

/-- C9: when a table's primary-key entry is the explicit absence marker
(`None`), the stream emits zero INSERT statements for that table, and the
overall output is exactly the concatenation of the other tables' outputs. -/
theorem C9_null_pk_skips_table (pre post : List (String × TableDef))
    (t : String) (td : TableDef) (rowsf : String → Nat) (s b m : Nat)
    (np : ℚ) (cap : Option Nat)
    (pk : String → Option (Option (List String)))
    (rand : String → Nat → String → Rand) (out : List String)
    (hpk : pk t = some none)
    (h : stream_insert_statements (pre ++ (t, td) :: post) rowsf s b m np cap
      pk rand = .ok out) :
    ∃ o1 o2,
      stream_insert_statements pre rowsf s b m np cap pk rand = .ok o1
      ∧ stream_insert_statements post rowsf s b m np cap pk rand = .ok o2
      ∧ out = o1 ++ o2 := by
  induction pre generalizing out with
  | nil =>
    simp only [List.nil_append] at h
    simp only [stream_insert_statements] at h
    cases hrows : stream_table_inserts t td s b m np (rowsf t) cap (pk t)
        (rand t) with
    | error e =>
      rw [hrows] at h
      exact Except.noConfusion h
    | ok rows =>
      rw [hrows] at h
      cases hpost : stream_insert_statements post rowsf s b m np cap pk
          rand with
      | error e =>
        rw [hpost] at h
        exact Except.noConfusion h
      | ok o2 =>
        rw [hpost] at h
        rw [hpk] at hrows
        obtain rfl : rows = [] := insertLoop_skip _ _ _ _ _ hrows
        refine ⟨[], o2, rfl, rfl, ?_⟩
        simpa using (Except.ok.inj h).symm
  | cons p rest ih =>
    obtain ⟨pn, ptd⟩ := p
    simp only [List.cons_append] at h
    simp only [stream_insert_statements] at h
    cases hhead : stream_table_inserts pn ptd s b m np (rowsf pn) cap (pk pn)
        (rand pn) with
    | error e =>
      rw [hhead] at h
      exact Except.noConfusion h
    | ok rows1 =>
      rw [hhead] at h
      cases htail : stream_insert_statements (rest ++ (t, td) :: post) rowsf
          s b m np cap pk rand with
      | error e =>
        rw [htail] at h
        exact Except.noConfusion h
      | ok outTail =>
        rw [htail] at h
        obtain ⟨o1, o2, ho1, ho2, rfl⟩ := ih outTail htail
        refine ⟨rows1.map renderStmt ++ o1, o2, ?_, ho2, ?_⟩
        · simp only [stream_insert_statements, hhead, ho1]
        · have hout := Except.ok.inj h
          rw [← hout, List.append_assoc]

/-- The primary-key map of the C9 witness: the first table maps to the
explicit absence marker, other tables are absent from the map. -/
def c9pk : String → Option (Option (List String)) :=
  fun n => if n = "a.t1" then some none else none

/-- The randomness of the C9 witness: the bit draw equals the row
position. -/
def c9rand : String → Nat → String → Rand :=
  fun _ pos _ => { randZero with bit1 := pos }

/-- The overall output of the C9 witness run: only the second table's two
rows. -/
def c9Out : List String :=
  ["INSERT INTO a.t2 VALUES(0);\n", "INSERT INTO a.t2 VALUES(1);\n"]

/-- C9 witness: a concrete two-table run in which the first table is skipped
and the second is unaffected. -/
theorem C9_witness :
    ∃ o1 o2,
      stream_insert_statements ([] : List (String × TableDef)) (fun _ => 2)
        5 5 10 0 (some 1000) c9pk c9rand = .ok o1
      ∧ stream_insert_statements [(("a.t2"), [(("Id"), bitCol)])]
        (fun _ => 2) 5 5 10 0 (some 1000) c9pk c9rand = .ok o2
      ∧ c9Out = o1 ++ o2 :=
  C9_null_pk_skips_table [] [(("a.t2"), [(("Id"), bitCol)])] ("a.t1")
    [(("Id"), bitCol)] (fun _ => 2) 5 5 10 0 (some 1000) c9pk c9rand c9Out
    (by rfl) (by rfl)

/-- C10 witness: a duplicate column row overwrites the earlier definition
without growing the table. -/
theorem C10_witness :
    ∃ td2,
      omLookup (generate_table_definitions ([crow1] ++ [crow2]))
        (fullTableName crow2) = some td2
      ∧ omKeys td2 = omKeys [(("Id" : String), columnDefOfRow crow1)]
      ∧ td2.length = [(("Id" : String), columnDefOfRow crow1)].length
      ∧ omLookup td2 crow2.column_name = some (columnDefOfRow crow2) :=
  C10_duplicate_column_overwrites [crow1] crow2
    [(("Id" : String), columnDefOfRow crow1)] (by decide) (by decide)

end SynthGen
